import Mathlib

/-!
Shallow embedding of the jaildata serverless core
(`src/serverless/lib/StorageClient.ts`,
`src/serverless/api/handlers/data-collection.ts`,
`src/serverless/api/handlers/batch-processing.ts`) and proofs about it.

JavaScript values that flow through the storage layer are modelled by the
inductive `Value` below; JS builtins with no local definition (JSON.parse,
new Date(string), parseFloat) are passed in as oracle parameters, and the
ambient current time is a `JsDate` parameter.
-/

/-- A JSON-ish JavaScript value.  Arrays and objects are modelled as cons
chains (`arrCons`/`objCons` terminated by `arrNil`/`objNil`), which keeps
all recursion structural. -/
inductive Value where
  | str (s : String)
  | num (n : Int)
  | bool (b : Bool)
  | null
  | arrNil
  | arrCons (head : Value) (tail : Value)
  | objNil
  | objCons (key : String) (val : Value) (rest : Value)
deriving DecidableEq, Repr

/-- First binding of `key` in an object (JS property lookup; parsed JSON
objects have unique keys). -/
def Value.getField : Value → String → Option Value
  | .objCons k v rest, key => if k = key then some v else rest.getField key
  | _, _ => none

/-- JS `Array.isArray`. -/
def Value.isArray : Value → Bool
  | .arrNil => true
  | .arrCons _ _ => true
  | _ => false

/-- Elements of an array value, as a Lean list. -/
def Value.toItemList : Value → List Value
  | .arrCons v rest => v :: rest.toItemList
  | _ => []

/-- JS truthiness of a value ("" , 0, false, null/undefined are falsy;
objects and arrays are truthy). -/
def Value.truthy : Value → Bool
  | .str s => !(s == "")
  | .num n => !(n == 0)
  | .bool b => b
  | .null => false
  | _ => true

/-- `obj.K || ""` for a field `K` typed `string | undefined`:
the string if present and non-empty, otherwise `""`. -/
def Value.strFieldOrEmpty (v : Value) (key : String) : String :=
  match v.getField key with
  | some (.str s) => s
  | _ => ""

/-- An optional string field, as `Option String` (absent ↦ `none`). -/
def Value.strField (v : Value) (key : String) : Option String :=
  match v.getField key with
  | some (.str s) => some s
  | _ => none

/-! ## StorageClient.ts : removeDynamoAttributes -/

/-- `DYNAMO_ATTRIBUTES` (StorageClient.ts line 12). -/
def DYNAMO_ATTRIBUTES : List String := ["PK", "SK", "GSI1PK", "GSI1SK"]

def isDynamoAttribute (k : String) : Bool := DYNAMO_ATTRIBUTES.contains k

/-- `removeDynamoAttributes` (StorageClient.ts lines 19-50): deletes the
four key attributes from an object and recursively cleans every nested
object and array; primitives are returned unchanged. -/
def removeDynamoAttributes : Value → Value
  | .arrCons v rest => .arrCons (removeDynamoAttributes v) (removeDynamoAttributes rest)
  | .objCons k v rest =>
      if isDynamoAttribute k then removeDynamoAttributes rest
      else .objCons k (removeDynamoAttributes v) (removeDynamoAttributes rest)
  | v => v

/-- No attribute named like a DynamoDB key attribute occurs anywhere in the
value (at any nesting depth). -/
def noDynamoKeys : Value → Bool
  | .arrCons v rest => noDynamoKeys v && noDynamoKeys rest
  | .objCons k v rest => !isDynamoAttribute k && (noDynamoKeys v && noDynamoKeys rest)
  | _ => true

theorem removeDynamoAttributes_id (v : Value) (h : noDynamoKeys v = true) :
    removeDynamoAttributes v = v := by
  induction v with
  | arrCons hd tl ih1 ih2 =>
      simp only [noDynamoKeys, Bool.and_eq_true] at h
      simp [removeDynamoAttributes, ih1 h.1, ih2 h.2]
  | objCons k val rest ih1 ih2 =>
      simp only [noDynamoKeys, Bool.and_eq_true, Bool.not_eq_true'] at h
      simp [removeDynamoAttributes, h.1, ih1 h.2.1, ih2 h.2.2]
  | _ => rfl

/-! ## Character-level models of the JS string builtins used by the code
(spelled out on `List Char` so that all of them are kernel-computable). -/

/-- JS `toLowerCase` (ASCII; the names in play are ASCII). -/
def jsToLowerCase (s : String) : String := String.mk (s.toList.map Char.toLower)

/-- JS `toUpperCase` (ASCII). -/
def jsToUpperCase (s : String) : String := String.mk (s.toList.map Char.toUpper)

/-- Does the first character list begin with the second?  (DynamoDB
`begins_with` on UTF-8 keys, JS `startsWith`.) -/
def charsBeginWith : List Char → List Char → Bool
  | _, [] => true
  | [], _ :: _ => false
  | c :: cs, p :: ps => c == p && charsBeginWith cs ps

/-- JS `String.prototype.split(sep)` for a one-character separator. -/
def splitChar (sep : Char) : List Char → List (List Char)
  | [] => [[]]
  | c :: rest =>
      let r := splitChar sep rest
      if c = sep then [] :: r
      else
        match r with
        | g :: gs => (c :: g) :: gs
        | [] => [[c]]

/-- JS `String.prototype.trim` (whitespace at both ends; cookie strings are
ASCII). -/
def trimChars (cs : List Char) : List Char :=
  ((cs.dropWhile Char.isWhitespace).reverse.dropWhile Char.isWhitespace).reverse

/-! ## StorageClient.ts : key derivation -/

/-- `cleanNameForKey` (StorageClient.ts lines 81-83):
`(name || "").toLowerCase().replace(/[^a-z0-9]/g, "")`. -/
def cleanNameForKey (name : Option String) : String :=
  String.mk ((jsToLowerCase (name.getD "")).toList.filter
    fun c => ('a' ≤ c && c ≤ 'z') || ('0' ≤ c && c ≤ '9'))

structure DynamoCompositeKey where
  PK : String
  SK : String
deriving DecidableEq, Repr

/-- `Key.Inmate` (StorageClient.ts lines 59-70). -/
def Key.Inmate (facilityId lastName firstName middleName recordDate : String) :
    DynamoCompositeKey :=
  { PK := "INMATE#" ++ facilityId ++ "#" ++ cleanNameForKey (some lastName)
      ++ "#" ++ cleanNameForKey (some firstName)
      ++ "#" ++ cleanNameForKey (some middleName)
    SK := recordDate }

/-- `getFacilityGSIKeys` (StorageClient.ts lines 91-96). -/
def getFacilityGSIKeys (facilityId recordDate : String) : String × String :=
  ("FACILITY#" ++ facilityId, recordDate)

/-! ## StorageClient.ts : parseArrestDate -/

/-- The pieces of `new Date()` that `parseArrestDate` reads: the
`YYYY-MM-DD` part of `toISOString()`, and the local-time month (0-based),
day-of-month and year used by the final fallback. -/
structure JsDate where
  isoDate : String
  getMonth : Nat
  getDate : Nat
  getFullYear : Nat

/-- Take exactly `n` ASCII digits from the front of the character list. -/
def takeDigits : Nat → List Char → Option (List Char × List Char)
  | 0, cs => some ([], cs)
  | _ + 1, [] => none
  | n + 1, c :: cs =>
      if c.isDigit then (takeDigits n cs).map fun p => (c :: p.1, p.2)
      else none

/-- One alternative of the day-and-year part of the regex
`^(\d{1,2})\/(\d{1,2})\/(\d{4})`: exactly `k` digits of day, a slash, then
exactly four digits of year. -/
def matchDayYearAt (k : Nat) (cs : List Char) : Option (List Char × List Char) :=
  match takeDigits k cs with
  | some (d, '/' :: r2) =>
      match takeDigits 4 r2 with
      | some (y, _) => some (d, y)
      | none => none
  | _ => none

/-- Greedy `(\d{1,2})\/(\d{4})` day-and-year match: two digits of day
first, backtracking to one. -/
def matchDayYear (cs : List Char) : Option (List Char × List Char) :=
  (matchDayYearAt 2 cs).orElse fun _ => matchDayYearAt 1 cs

/-- One alternative of the month part: exactly `k` digits of month, a
slash, then `matchDayYear`. -/
def matchMonthAt (k : Nat) (cs : List Char) :
    Option (List Char × List Char × List Char) :=
  match takeDigits k cs with
  | some (m, '/' :: r2) =>
      match matchDayYear r2 with
      | some (d, y) => some (m, d, y)
      | none => none
  | _ => none

/-- The anchored regex match
`arrestDate.match(/^(\d{1,2})\/(\d{1,2})\/(\d{4})/)` (StorageClient.ts
line 168): greedy 1-2 digit month with backtracking, slash, day and year as
in `matchDayYear`.  Returns the three captured groups. -/
def dateMatch (s : String) : Option (String × String × String) :=
  ((matchMonthAt 2 s.toList).orElse fun _ => matchMonthAt 1 s.toList).map
    fun (m, d, y) => (String.mk m, String.mk d, String.mk y)

/-- JS `String.prototype.padStart(len, pad)` with a one-character pad. -/
def jsPadStart (s : String) (len : Nat) (pad : Char) : String :=
  String.mk (List.replicate (len - s.length) pad) ++ s

/-- `parseArrestDate` (StorageClient.ts lines 158-187).  `now` stands for
`new Date()`; `jsDateParse` is the `new Date(string)` oracle, returning the
`YYYY-MM-DD` part of `toISOString()` when the parse succeeds (`none` models
`isNaN(getTime())`).  Total: the function never throws. -/
def parseArrestDate (now : JsDate) (jsDateParse : String → Option String)
    (arrestDate : Option String) : String :=
  match arrestDate with
  | none => now.isoDate
  | some s =>
    if s = "" then now.isoDate
    else
      match dateMatch s with
      | some (m, d, y) =>
          y ++ "-" ++ jsPadStart m 2 '0' ++ "-" ++ jsPadStart d 2 '0'
      | none =>
          match jsDateParse s with
          | some iso => iso
          | none =>
              toString (now.getMonth + 1) ++ "/" ++ toString now.getDate
                ++ "/" ++ toString now.getFullYear

example : dateMatch "9/15/2025 10:30:00 AM" = some ("9", "15", "2025") := by decide

example : dateMatch "13/45/2023" = some ("13", "45", "2023") := by decide

example : dateMatch "not a date" = none := by decide

/-! ## StorageClient.ts : saveInmate / batchSaveInmates record construction -/

/-- The inmate record's `TotalBondAmount` coerced to a number
(StorageClient.ts lines 199-202 and 408-411):
`typeof x === "string" ? parseFloat(x) || 0 : x || 0`.  `parseFloat` is a
JS builtin, passed as an oracle (`none` models `NaN`); JS numbers are
modelled as `Int`. -/
def coerceBondAmount (parseFloat : String → Option Int) (inmate : Value) : Int :=
  match inmate.getField "TotalBondAmount" with
  | some (.str s) => (parseFloat s).getD 0
  | some (.num n) => n
  | _ => 0

/-- The `InmateDynamoRecord` written by `saveInmate` (StorageClient.ts
lines 193-230) and by each put request of `batchSaveInmates` (lines
404-442): key attributes from `Key.Inmate` and `getFacilityGSIKeys`, the
extracted attributes, and the full original record under `rawData`.
`lastUpdated` stands for `new Date().toISOString()`. -/
def inmateDynamoRecord (parseFloat : String → Option Int) (now : JsDate)
    (jsDateParse : String → Option String) (lastUpdated facilityId : String)
    (inmate : Value) : Value :=
  let firstName := inmate.strFieldOrEmpty "FirstName"
  let lastName := inmate.strFieldOrEmpty "LastName"
  let middleName := inmate.strFieldOrEmpty "MiddleName"
  let totalBondAmount := coerceBondAmount parseFloat inmate
  let recordDate := parseArrestDate now jsDateParse (inmate.strField "ArrestDate")
  let inmateKey := Key.Inmate facilityId lastName firstName middleName recordDate
  let facilityGSI := getFacilityGSIKeys facilityId recordDate
  .objCons "PK" (.str inmateKey.PK)
    (.objCons "SK" (.str inmateKey.SK)
      (.objCons "GSI1PK" (.str facilityGSI.1)
        (.objCons "GSI1SK" (.str facilityGSI.2)
          (.objCons "totalBondAmount" (.num totalBondAmount)
            (.objCons "recordDate" (.str recordDate)
              (.objCons "lastUpdated" (.str lastUpdated)
                (.objCons "rawData" inmate .objNil)))))))

/-- `get` (StorageClient.ts lines 109-127) applied to a stored item:
every read path returns `removeDynamoAttributes` of the raw item. -/
def getStoredItem (item : Value) : Value := removeDynamoAttributes item

/-- `searchInmatesByLastName` (StorageClient.ts lines 343-368) against a
model table (list of stored items): keep the items whose `PK` begins with
`INMATE#{facilityId}#{lastName.toUpperCase()}`, up to `limit`, and strip
the DynamoDB attributes from each. -/
def searchInmatesByLastName (table : List Value) (facilityId lastName : String)
    (limit : Nat) : List Value :=
  ((table.filter fun item =>
      match item.getField "PK" with
      | some (.str pk) =>
          charsBeginWith pk.toList
            ("INMATE#" ++ facilityId ++ "#" ++ jsToUpperCase lastName).toList
      | _ => false).take limit).map removeDynamoAttributes

/-- The chunking loop of `batchSaveInmates` (StorageClient.ts lines
398-402): `for (i = 0; i < n; i += 25) chunk = slice(i, i + 25)`, rendered
as fuel-indexed recursion (`fuel = length` suffices) so it stays
kernel-computable. -/
def chunksOf25Fuel {α : Type} : Nat → List α → List (List α)
  | 0, _ => []
  | _ + 1, [] => []
  | fuel + 1, x :: xs => ((x :: xs).take 25) :: chunksOf25Fuel fuel ((x :: xs).drop 25)

def chunksOf25 {α : Type} (l : List α) : List (List α) := chunksOf25Fuel l.length l

/-- The sequence of `BatchWriteCommand` calls issued by `batchSaveInmates`
(StorageClient.ts lines 393-456): one call per chunk of at most 25 records,
each put item built exactly as in `saveInmate`. -/
def batchSaveCalls (parseFloat : String → Option Int) (now : JsDate)
    (jsDateParse : String → Option String) (lastUpdated facilityId : String)
    (inmates : List Value) : List (List Value) :=
  (chunksOf25 inmates).map fun chunk =>
    chunk.map (inmateDynamoRecord parseFloat now jsDateParse lastUpdated facilityId)

/-- Outcome of running `batchSaveInmates` against a batch-write backend:
which calls were issued, which put items were persisted, and the error (if
any) rethrown to the caller. -/
structure BatchRun where
  issued : List (List Value)
  written : List Value
  errMsg : Option String
deriving DecidableEq, Repr

/-- Sequential execution of the batch-write calls (the `for` loop body plus
the surrounding try/catch of `batchSaveInmates`): each call is sent in
order; a successful call persists its items; the first failing call stops
the loop and its error is rethrown (already-written groups stay written). -/
def runBatchWrites (send : List Value → Except String Unit) :
    List (List Value) → BatchRun
  | [] => { issued := [], written := [], errMsg := none }
  | g :: gs =>
      match send g with
      | .ok _ =>
          let r := runBatchWrites send gs
          { issued := g :: r.issued, written := g ++ r.written, errMsg := r.errMsg }
      | .error e => { issued := [g], written := [], errMsg := some e }

/-- `batchSaveInmates` end to end: build the chunked calls, then run them
against the backend. -/
def batchSaveInmatesRun (parseFloat : String → Option Int) (now : JsDate)
    (jsDateParse : String → Option String) (lastUpdated facilityId : String)
    (send : List Value → Except String Unit) (inmates : List Value) : BatchRun :=
  runBatchWrites send (batchSaveCalls parseFloat now jsDateParse lastUpdated facilityId inmates)

/-! ## data-collection.ts : CookieJar and session initialization -/

/-- Replace the binding of `name` if present, else append — JS
`Map.prototype.set`. -/
def setJarEntry : List (String × String) → String → String → List (String × String)
  | [], name, value => [(name, value)]
  | (n, v) :: rest, name, value =>
      if n = name then (name, value) :: rest
      else (n, v) :: setJarEntry rest name value

def lookupJar : List (String × String) → String → Option String
  | [], _ => none
  | (n, v) :: rest, name => if n = name then some v else lookupJar rest name

/-- `CookieJar.setCookie` (data-collection.ts lines 27-35): split the
header on `;`, trim each part, split it on `=`, and store the pair when
both the name and the value are non-empty (JS truthiness on the first two
split components). -/
def setCookie (jar : List (String × String)) (cookieString : String) :
    List (String × String) :=
  (splitChar ';' cookieString.toList).foldl
    (fun jar cookie =>
      match splitChar '=' (trimChars cookie) with
      | name :: value :: _ =>
          if name ≠ [] ∧ value ≠ [] then
            setJarEntry jar (String.mk name) (String.mk value)
          else jar
      | _ => jar)
    jar

/-- `CookieJar.getXsrfToken` (data-collection.ts lines 47-49). -/
def getXsrfToken (jar : List (String × String)) : Option String :=
  lookupJar jar "XSRF-TOKEN"

/-- The cookie jar accumulated from the `set-cookie` headers of the initial
GET response (the response interceptor, data-collection.ts lines 109-126,
calls `setCookie` once per header). -/
def jarFromHeaders (setCookieHeaders : List String) : List (String × String) :=
  setCookieHeaders.foldl setCookie []

/-- `initializeSession` (data-collection.ts lines 153-174): one GET request
(whose `set-cookie` headers are the input), then fail unless an XSRF token
is now extractable from the jar. -/
def initializeSession (setCookieHeaders : List String) :
    Except String (List (String × String)) :=
  let jar := jarFromHeaders setCookieHeaders
  match getXsrfToken jar with
  | some _ => .ok jar
  | none => .error "Failed to obtain XSRF token from initial request"

/-! ## data-collection.ts : collectAllInmates pagination loop -/

/-- One page of the upstream response: `{Inmates, Total}` (`ShowImages` is
never read by the loop). -/
structure ApiBatch where
  Inmates : List Value
  Total : Nat
deriving DecidableEq, Repr

/-- Observable trace of the pagination loop. -/
structure CollectionRun where
  requests : List Nat
  enqueued : List ApiBatch
  totalProcessed : Nat
  completed : Bool
deriving DecidableEq, Repr

/-- The `while (true)` loop of `collectAllInmates` (data-collection.ts
lines 187-247).  `page skip` is the response to the POST with
`PagingOptions.Skip = skip`, `batchSize` is `Take`; `totalRecords` is
captured from the first page (`none` before it); the loop sends every
fetched page to the queue, then breaks when the page is short or the
cumulative count reaches the captured total, else advances `skip` by the
fixed `batchSize`.  `fuel` bounds the recursion; `completed = false` means
the fuel ran out before the loop broke. -/
def collectLoop (page : Nat → ApiBatch) (batchSize : Nat) :
    Nat → Nat → Nat → Option Nat → CollectionRun
  | 0, _, tp, _ =>
      { requests := [], enqueued := [], totalProcessed := tp, completed := false }
  | fuel + 1, skip, tp, totalRecords =>
      let batch := page skip
      let total := totalRecords.getD batch.Total
      let tp2 := tp + batch.Inmates.length
      if batch.Inmates.length < batchSize ∨ total ≤ tp2 then
        { requests := [skip], enqueued := [batch], totalProcessed := tp2,
          completed := true }
      else
        let rest := collectLoop page batchSize fuel (skip + batchSize) tp2 (some total)
        { requests := skip :: rest.requests, enqueued := batch :: rest.enqueued,
          totalProcessed := rest.totalProcessed, completed := rest.completed }

/-- Outcome of `collectAllInmates` (data-collection.ts lines 177-259):
`initializeSession` first; on session failure the error propagates with no
page request issued and nothing enqueued; otherwise the pagination loop
runs. -/
structure CollectOutcome where
  requests : List Nat
  enqueued : List ApiBatch
  errMsg : Option String
deriving DecidableEq, Repr

def collectAllInmates (setCookieHeaders : List String) (page : Nat → ApiBatch)
    (batchSize fuel : Nat) : CollectOutcome :=
  match initializeSession setCookieHeaders with
  | .error e => { requests := [], enqueued := [], errMsg := some e }
  | .ok _ =>
      let r := collectLoop page batchSize fuel 0 0 none
      { requests := r.requests, enqueued := r.enqueued, errMsg := none }

/-- Cumulative number of records returned by the pages at offsets
`0, B, ..., (n-1)*B`. -/
def cumInmates (page : Nat → ApiBatch) (B : Nat) : Nat → Nat
  | 0 => 0
  | n + 1 => cumInmates page B n + (page (n * B)).Inmates.length

/-- The loop's termination condition holds at page index `n`: the page at
offset `n*B` is short, or the cumulative record count through it reaches
the `Total` reported by the first page. -/
def stopsAt (page : Nat → ApiBatch) (B n : Nat) : Prop :=
  (page (n * B)).Inmates.length < B ∨ (page 0).Total ≤ cumInmates page B (n + 1)

instance (page : Nat → ApiBatch) (B n : Nat) : Decidable (stopsAt page B n) := by
  unfold stopsAt; exact inferInstance

/-! ## batch-processing.ts : processBatch / processSingleBatch -/

/-- The parse-and-validate part of `processSingleBatch`
(batch-processing.ts lines 53-64): `JSON.parse` (an oracle, `none` models a
throw), then reject a falsy `facilityId`, then reject a falsy `batch` or a
`batch.Inmates` that is not an array.  On success returns the arguments of
the storage call: the `facilityId` value and the `Inmates` elements. -/
def validateBatchMessage (parseJson : String → Option Value) (body : String) :
    Except String (Value × List Value) :=
  match parseJson body with
  | none => .error "Unexpected token in JSON"
  | some msg =>
      let fid := (msg.getField "facilityId").getD .null
      if fid.truthy = false then .error "Missing facilityId in batch message"
      else
        match msg.getField "batch" with
        | none => .error "Invalid batch structure in message"
        | some batch =>
            if batch.truthy = false then .error "Invalid batch structure in message"
            else
              match batch.getField "Inmates" with
              | some inm =>
                  if inm.isArray then .ok (fid, inm.toItemList)
                  else .error "Invalid batch structure in message"
              | none => .error "Invalid batch structure in message"

/-- `processSingleBatch` (batch-processing.ts lines 53-86): validate, then
call `StorageClient.batchSaveInmates` (the `store` oracle).  The `ok`
payload records the arguments of the storage call that succeeded. -/
def processSingleBatch (parseJson : String → Option Value)
    (store : Value → List Value → Except String Unit) (body : String) :
    Except String (Value × List Value) :=
  match validateBatchMessage parseJson body with
  | .error e => .error e
  | .ok (fid, inmates) =>
      match store fid inmates with
      | .ok _ => .ok (fid, inmates)
      | .error e => .error e

/-- `processBatch` (batch-processing.ts lines 8-51): every record of the
SQS event is processed via `Promise.allSettled`, so each unit is attempted
regardless of the others; the handler collects the settled results and
returns normally. -/
def processBatch (parseJson : String → Option Value)
    (store : Value → List Value → Except String Unit) (bodies : List String) :
    List (Except String (Value × List Value)) :=
  bodies.map (processSingleBatch parseJson store)

/-! ## Concrete fixtures used in closed evaluations -/

/-- `parseFloat` oracle whose value is irrelevant to the statement. -/
def noFloat : String → Option Int := fun _ => none

/-- `new Date(string)` oracle that never parses (irrelevant where used). -/
def noDateParse : String → Option String := fun _ => none

/-- A concrete `new Date()`: 2025-10-11 UTC and local. -/
def demoNow : JsDate :=
  { isoDate := "2025-10-11", getMonth := 9, getDate := 11, getFullYear := 2025 }

/-- A concrete `new Date().toISOString()` for `lastUpdated`. -/
def demoIso : String := "2025-10-11T00:00:00.000Z"

/-- A raw upstream record for John Smith. -/
def smithRecord : Value :=
  .objCons "FirstName" (.str "John")
    (.objCons "LastName" (.str "Smith")
      (.objCons "ArrestDate" (.str "9/15/2025 10:30:00 AM") .objNil))

/-! ## Helper lemmas -/

theorem dateMatch_empty : dateMatch "" = none := by decide

/-- On a string whose start matches the `M/D/YYYY` regex, `parseArrestDate`
returns the zero-padded recombination of the captured groups. -/
theorem parseArrestDate_match_eq (now : JsDate) (jsDateParse : String → Option String)
    (s m d y : String) (h : dateMatch s = some (m, d, y)) :
    parseArrestDate now jsDateParse (some s) =
      y ++ "-" ++ jsPadStart m 2 '0' ++ "-" ++ jsPadStart d 2 '0' := by
  have hs : s ≠ "" := by
    intro he
    rw [he, dateMatch_empty] at h
    exact Option.noConfusion h
  simp only [parseArrestDate]
  rw [if_neg hs, h]

/-! ## Claim C1 -/

/-- C1: surname search is NOT consistent with key derivation.  Saving John
Smith at facility `buncombe` stores partition key
`INMATE#buncombe#smith#john#` (lowercased by `cleanNameForKey`), while
`searchInmatesByLastName("buncombe", "Smith")` scans for keys beginning
with the uppercased `INMATE#buncombe#SMITH`; the prefix does not match, so
the freshly saved record is absent from the search results even with no
limit pressure. -/
theorem searchInmatesByLastName_misses_saved_record :
    (inmateDynamoRecord noFloat demoNow noDateParse demoIso "buncombe" smithRecord).getField "PK"
        = some (.str "INMATE#buncombe#smith#john#") ∧
    searchInmatesByLastName
        [inmateDynamoRecord noFloat demoNow noDateParse demoIso "buncombe" smithRecord]
        "buncombe" "Smith" 50 = [] := by
  constructor <;> decide

/-! ## Claim C4 -/

/-- C4: for every input string whose start matches the `M/D/YYYY` pattern
(1-2 digit month, 1-2 digit day, 4-digit year, anything after), date
normalization returns the zero-padded `YYYY-MM-DD` built directly from the
three captured components, with no timezone interpretation (independent of
`now` and of the generic date-parse oracle). -/
theorem parseArrestDate_fast_path (now : JsDate) (jsDateParse : String → Option String)
    (s m d y : String) (h : dateMatch s = some (m, d, y)) :
    parseArrestDate now jsDateParse (some s) =
      y ++ "-" ++ jsPadStart m 2 '0' ++ "-" ++ jsPadStart d 2 '0' :=
  parseArrestDate_match_eq now jsDateParse s m d y h

/-- C4 witness: `normalize("9/15/2025 10:30:00 AM") = "2025-09-15"`. -/
theorem parseArrestDate_fast_path_witness :
    parseArrestDate demoNow noDateParse (some "9/15/2025 10:30:00 AM") = "2025-09-15" :=
  (parseArrestDate_fast_path demoNow noDateParse "9/15/2025 10:30:00 AM" "9" "15" "2025"
    (by decide)).trans (by decide)

/-! ## Claim C5 -/

/-- C5: date normalization is total (this model is a total function), and
the two fallback branches use different formats: empty/absent input yields
the current date from `toISOString` (`YYYY-MM-DD`), while a non-empty
string that matches neither the regex nor generic date parsing yields the
current date as `getMonth()+1 / getDate() / getFullYear()` with no zero
padding. -/
theorem parseArrestDate_fallback_formats (now : JsDate)
    (jsDateParse : String → Option String) :
    parseArrestDate now jsDateParse none = now.isoDate ∧
    parseArrestDate now jsDateParse (some "") = now.isoDate ∧
    ∀ s : String, s ≠ "" → dateMatch s = none → jsDateParse s = none →
      parseArrestDate now jsDateParse (some s) =
        toString (now.getMonth + 1) ++ "/" ++ toString now.getDate ++ "/"
          ++ toString now.getFullYear := by
  refine ⟨rfl, rfl, fun s hs h1 h2 => ?_⟩
  simp only [parseArrestDate]
  rw [if_neg hs, h1, h2]

/-- A concrete `new Date()` whose local month/day are single-digit:
2025-09-05 (`getMonth() = 8`). -/
def fallbackNow : JsDate :=
  { isoDate := "2025-09-05", getMonth := 8, getDate := 5, getFullYear := 2025 }

/-- C5 witness: absent input gives `"2025-09-05"`; `"not a date"` gives the
differently formatted `"9/5/2025"`. -/
theorem parseArrestDate_fallback_formats_witness :
    parseArrestDate fallbackNow noDateParse none = "2025-09-05" ∧
    parseArrestDate fallbackNow noDateParse (some "not a date") = "9/5/2025" := by
  have h := parseArrestDate_fallback_formats fallbackNow noDateParse
  exact ⟨h.1, (h.2.2 "not a date" (by decide) (by decide) rfl).trans (by decide)⟩

/-! ## Claim C10 -/

/-- C10: the `M/D/YYYY` fast path performs no calendar validation — any
record whose `ArrestDate` starts with digits matching the pattern gets the
raw recombination as its stored `recordDate` and sort key `SK`, even when
the components denote no real calendar date. -/
theorem inmateDynamoRecord_unvalidated_date (parseFloat : String → Option Int)
    (now : JsDate) (jsDateParse : String → Option String) (lu fac : String)
    (inmate : Value) (s m d y : String)
    (harr : inmate.strField "ArrestDate" = some s)
    (h : dateMatch s = some (m, d, y)) :
    (inmateDynamoRecord parseFloat now jsDateParse lu fac inmate).getField "SK" =
        some (.str (y ++ "-" ++ jsPadStart m 2 '0' ++ "-" ++ jsPadStart d 2 '0')) ∧
    (inmateDynamoRecord parseFloat now jsDateParse lu fac inmate).getField "recordDate" =
        some (.str (y ++ "-" ++ jsPadStart m 2 '0' ++ "-" ++ jsPadStart d 2 '0')) := by
  have hdate := parseArrestDate_match_eq now jsDateParse s m d y h
  constructor <;> simp [inmateDynamoRecord, Value.getField, Key.Inmate, harr, hdate]

/-! ## Claim C2 -/

/-- C2 (amended): every read path returns `removeDynamoAttributes` of the
stored item, so the returned `rawData` is the original raw record with any
attribute named `PK`, `SK`, `GSI1PK` or `GSI1SK` (at any nesting depth)
stripped; when the raw record contains no such attribute name the
round-trip is verbatim. -/
theorem saveInmate_roundTrip_rawData (parseFloat : String → Option Int)
    (now : JsDate) (jsDateParse : String → Option String) (lu fac : String)
    (inmate : Value) :
    (getStoredItem (inmateDynamoRecord parseFloat now jsDateParse lu fac inmate)).getField
        "rawData" = some (removeDynamoAttributes inmate) ∧
    (noDynamoKeys inmate = true →
      (getStoredItem (inmateDynamoRecord parseFloat now jsDateParse lu fac inmate)).getField
        "rawData" = some inmate) := by
  have hbase : (getStoredItem (inmateDynamoRecord parseFloat now jsDateParse lu fac
      inmate)).getField "rawData" = some (removeDynamoAttributes inmate) := rfl
  exact ⟨hbase, fun h => hbase.trans (congrArg some (removeDynamoAttributes_id inmate h))⟩

/-- C2 witness: saving and reading back John Smith (whose raw record uses
no storage-internal attribute name) returns the raw record verbatim. -/
theorem saveInmate_roundTrip_rawData_witness :
    (getStoredItem (inmateDynamoRecord noFloat demoNow noDateParse demoIso "wake"
      smithRecord)).getField "rawData" = some smithRecord :=
  (saveInmate_roundTrip_rawData noFloat demoNow noDateParse demoIso "wake" smithRecord).2
    (by decide)

/-- A raw upstream record that happens to carry a field named `PK`. -/
def rawWithPK : Value :=
  .objCons "LastName" (.str "Doe") (.objCons "PK" (.str "boom") .objNil)

/-- C2 counterexample: a raw field whose name coincides with the storage
key attribute `PK` is NOT preserved — the read-back `rawData` lacks it. -/
theorem saveInmate_roundTrip_loses_PK_field :
    (getStoredItem (inmateDynamoRecord noFloat demoNow noDateParse demoIso "wake"
        rawWithPK)).getField "rawData" ≠ some rawWithPK ∧
    (getStoredItem (inmateDynamoRecord noFloat demoNow noDateParse demoIso "wake"
        rawWithPK)).getField "rawData"
      = some (.objCons "LastName" (.str "Doe") .objNil) := by
  constructor <;> decide

/-! ## Claim C6 -/

/-- Chunk lengths of a list of length `n`, fuel-indexed like
`chunksOf25Fuel`. -/
def lenChunks : Nat → Nat → List Nat
  | 0, _ => []
  | _ + 1, 0 => []
  | fuel + 1, n + 1 => min 25 (n + 1) :: lenChunks fuel (n + 1 - 25)

theorem chunksOf25Fuel_join {α : Type} :
    ∀ (fuel : Nat) (l : List α), l.length ≤ fuel → (chunksOf25Fuel fuel l).flatten = l := by
  intro fuel
  induction fuel with
  | zero =>
      intro l hl
      cases l with
      | nil => rfl
      | cons a as => simp at hl
  | succ f ih =>
      intro l hl
      cases l with
      | nil => rfl
      | cons a as =>
          have hl2 : as.length + 1 ≤ f + 1 := by simpa using hl
          simp only [chunksOf25Fuel, List.flatten_cons]
          rw [ih ((a :: as).drop 25) (by simp [List.length_drop]; omega)]
          exact List.take_append_drop 25 (a :: as)

theorem chunksOf25Fuel_map_length {α : Type} :
    ∀ (fuel : Nat) (l : List α), l.length ≤ fuel →
      (chunksOf25Fuel fuel l).map List.length = lenChunks fuel l.length := by
  intro fuel
  induction fuel with
  | zero =>
      intro l hl
      cases l with
      | nil => rfl
      | cons a as => simp at hl
  | succ f ih =>
      intro l hl
      cases l with
      | nil => rfl
      | cons a as =>
          have hl2 : as.length + 1 ≤ f + 1 := by simpa using hl
          simp only [chunksOf25Fuel, List.map_cons, List.length_cons, lenChunks]
          rw [ih ((a :: as).drop 25) (by simp [List.length_drop]; omega)]
          simp [List.length_take]
          omega

theorem lenChunks_le : ∀ (fuel n x : Nat), x ∈ lenChunks fuel n → x ≤ 25 := by
  intro fuel
  induction fuel with
  | zero => intro n x hx; simp [lenChunks] at hx
  | succ f ih =>
      intro n x hx
      cases n with
      | zero => simp [lenChunks] at hx
      | succ k =>
          simp only [lenChunks, List.mem_cons] at hx
          cases hx with
          | inl h => omega
          | inr h => exact ih _ _ h

theorem join_map_map {α β : Type} (f : α → β) :
    ∀ L : List (List α), (L.map (List.map f)).flatten = L.flatten.map f := by
  intro L
  induction L with
  | nil => rfl
  | cons c cs ih => simp only [List.map_cons, List.flatten_cons, List.map_append, ih]

/-- C6: `batchSaveInmates` partitions the records into consecutive groups
of at most 25, issuing exactly `⌈n/25⌉` batch-write calls in order (their
concatenation is the full put list in order); 30 records give 2 calls of
25 and 5 puts, 0 records give 0 calls. -/
theorem batchSaveInmates_chunking (parseFloat : String → Option Int) (now : JsDate)
    (jsDateParse : String → Option String) (lu fac : String) (inmates : List Value) :
    (batchSaveCalls parseFloat now jsDateParse lu fac inmates).length
        = (inmates.length + 24) / 25 ∧
    (batchSaveCalls parseFloat now jsDateParse lu fac inmates).flatten
        = inmates.map (inmateDynamoRecord parseFloat now jsDateParse lu fac) ∧
    (∀ c ∈ batchSaveCalls parseFloat now jsDateParse lu fac inmates, c.length ≤ 25) ∧
    (inmates.length = 30 →
      (batchSaveCalls parseFloat now jsDateParse lu fac inmates).map List.length = [25, 5]) ∧
    (inmates = [] → batchSaveCalls parseFloat now jsDateParse lu fac inmates = []) := by
  have hmaplen : (batchSaveCalls parseFloat now jsDateParse lu fac inmates).map List.length
      = lenChunks inmates.length inmates.length := by
    rw [batchSaveCalls, List.map_map]
    have hcomp : (List.length ∘ List.map (inmateDynamoRecord parseFloat now jsDateParse lu fac))
        = (List.length : List Value → Nat) :=
      funext fun c => List.length_map c _
    rw [hcomp, chunksOf25]
    exact chunksOf25Fuel_map_length inmates.length inmates (le_refl _)
  refine ⟨?_, ?_, ?_, ?_, ?_⟩
  · have h1 : (batchSaveCalls parseFloat now jsDateParse lu fac inmates).length
        = ((batchSaveCalls parseFloat now jsDateParse lu fac inmates).map List.length).length := by
      simp
    rw [h1, hmaplen]
    clear hmaplen h1
    have : ∀ fuel n, n ≤ fuel → (lenChunks fuel n).length = (n + 24) / 25 := by
      intro fuel
      induction fuel with
      | zero =>
          intro n hn
          have hn0 : n = 0 := by omega
          subst hn0
          rfl
      | succ f ih =>
          intro n hn
          cases n with
          | zero => rfl
          | succ k =>
              simp only [lenChunks, List.length_cons]
              rw [ih (k + 1 - 25) (by omega)]
              omega
    exact this inmates.length inmates.length (le_refl _)
  · rw [batchSaveCalls, join_map_map, chunksOf25,
      chunksOf25Fuel_join inmates.length inmates (le_refl _)]
  · intro c hc
    have : c.length ∈ (batchSaveCalls parseFloat now jsDateParse lu fac inmates).map
        List.length := List.mem_map_of_mem List.length hc
    rw [hmaplen] at this
    exact lenChunks_le _ _ _ this
  · intro h30
    rw [hmaplen, h30]
    decide
  · intro he
    rw [he]
    rfl

/-- C6 witness: 30 records issue exactly the two calls `[25, 5]`. -/
theorem batchSaveInmates_chunking_witness :
    (batchSaveCalls noFloat demoNow noDateParse demoIso "wake"
        (List.replicate 30 Value.null)).map List.length = [25, 5] :=
  (batchSaveInmates_chunking noFloat demoNow noDateParse demoIso "wake"
    (List.replicate 30 Value.null)).2.2.2.1 (by simp)

/-! ## Claim C7 -/

theorem runBatchWrites_failure (send : List Value → Except String Unit) :
    ∀ (gs1 : List (List Value)) (g : List Value) (gs2 : List (List Value)) (e : String),
      (∀ c ∈ gs1, send c = .ok ()) → send g = .error e →
      runBatchWrites send (gs1 ++ g :: gs2) =
        { issued := gs1 ++ [g], written := gs1.flatten, errMsg := some e } := by
  intro gs1
  induction gs1 with
  | nil =>
      intro g gs2 e _ hfail
      simp [runBatchWrites, hfail]
  | cons c cs ih =>
      intro g gs2 e hok hfail
      have hc : send c = .ok () := hok c (List.mem_cons_self c cs)
      have hrest := ih g gs2 e (fun x hx => hok x (List.mem_cons_of_mem c hx)) hfail
      simp [runBatchWrites, hc, hrest]

/-- C7: if the batch-write call for some group throws, `batchSaveInmates`
rethrows that error; the failing call and all groups before it were issued,
no later group's call is issued, and the puts of the groups written before
the failure stay written. -/
theorem batchSaveInmates_failure_aborts (parseFloat : String → Option Int)
    (now : JsDate) (jsDateParse : String → Option String) (lu fac : String)
    (send : List Value → Except String Unit) (inmates : List Value)
    (gs1 : List (List Value)) (g : List Value) (gs2 : List (List Value)) (e : String)
    (hcalls : batchSaveCalls parseFloat now jsDateParse lu fac inmates = gs1 ++ g :: gs2)
    (hok : ∀ c ∈ gs1, send c = .ok ()) (hfail : send g = .error e) :
    batchSaveInmatesRun parseFloat now jsDateParse lu fac send inmates =
      { issued := gs1 ++ [g], written := gs1.flatten, errMsg := some e } := by
  unfold batchSaveInmatesRun
  rw [hcalls]
  exact runBatchWrites_failure send gs1 g gs2 e hok hfail

/-- C7 witness: a backend that rejects the first call makes the whole
`batchSaveInmates` fail with that error, with exactly one call issued and
nothing written. -/
theorem batchSaveInmates_failure_aborts_witness :
    batchSaveInmatesRun noFloat demoNow noDateParse demoIso "wake"
        (fun _ => .error "boom") [Value.null] =
      { issued := [[inmateDynamoRecord noFloat demoNow noDateParse demoIso "wake" Value.null]],
        written := [], errMsg := some "boom" } :=
  batchSaveInmates_failure_aborts noFloat demoNow noDateParse demoIso "wake"
    (fun _ => .error "boom") [Value.null]
    [] [inmateDynamoRecord noFloat demoNow noDateParse demoIso "wake" Value.null] [] "boom"
    rfl (by simp) rfl

/-- A raw record whose `ArrestDate` starts `13/45/2023`: month 13, day 45. -/
def badDateRecord : Value :=
  .objCons "LastName" (.str "Roe")
    (.objCons "ArrestDate" (.str "13/45/2023 1:00:00 AM") .objNil)

/-- C10 witness: the impossible date `13/45/2023` is stored as sort key
`2023-13-45`. -/
theorem inmateDynamoRecord_unvalidated_date_witness :
    (inmateDynamoRecord noFloat demoNow noDateParse demoIso "wake" badDateRecord).getField "SK"
      = some (.str "2023-13-45") := by
  have h := inmateDynamoRecord_unvalidated_date noFloat demoNow noDateParse demoIso "wake"
    badDateRecord "13/45/2023 1:00:00 AM" "13" "45" "2023" (by decide) (by decide)
  exact h.1.trans (by decide)

/-! ## Claim C3 -/

/-- Running the pagination loop from page index `j` (skip `j*B`, cumulative
count `cumInmates j`, captured total from page 0), with `k` the first page
index satisfying the termination condition: the loop visits exactly pages
`j..k` and completes. -/
theorem collectLoop_run (page : Nat → ApiBatch) (B k : Nat)
    (hk : stopsAt page B k) (hmin : ∀ i < k, ¬ stopsAt page B i) :
    ∀ (fuel j : Nat), j ≤ k → k < j + fuel →
      collectLoop page B fuel (j * B) (cumInmates page B j) (some (page 0).Total) =
        { requests := (List.range' j (k + 1 - j)).map (fun i => i * B),
          enqueued := (List.range' j (k + 1 - j)).map (fun i => page (i * B)),
          totalProcessed := cumInmates page B (k + 1),
          completed := true } := by
  intro fuel
  induction fuel with
  | zero => intro j hj hfuel; omega
  | succ f ih =>
      intro j hj hfuel
      by_cases hjk : j = k
      · subst hjk
        have hk2 : (page (j * B)).Inmates.length < B ∨
            (page 0).Total ≤ cumInmates page B j + (page (j * B)).Inmates.length := hk
        simp only [collectLoop, Option.getD_some]
        rw [if_pos hk2]
        have hspan : j + 1 - j = 1 := by omega
        rw [hspan]
        simp [List.range', cumInmates]
      · have hjlt : j < k := by omega
        have hnot : ¬ ((page (j * B)).Inmates.length < B ∨
            (page 0).Total ≤ cumInmates page B j + (page (j * B)).Inmates.length) :=
          hmin j hjlt
        simp only [collectLoop, Option.getD_some]
        rw [if_neg hnot]
        have hrec := ih (j + 1) (by omega) (by omega)
        rw [Nat.succ_mul] at hrec
        rw [show cumInmates page B (j + 1)
            = cumInmates page B j + (page (j * B)).Inmates.length from rfl] at hrec
        rw [hrec]
        have hspan : k + 1 - j = (k - j) + 1 := by omega
        have hspan2 : k + 1 - (j + 1) = k - j := by omega
        rw [hspan, hspan2]
        simp [List.range'_succ]

/-- C3: with `B` the fixed page size, the loop requests offsets
`0, B, 2B, ...` (advancing by `B` regardless of the returned counts),
captures `Total` from the first page only (the stop predicate reads
`(page 0).Total` alone), and stops exactly at the first page index whose
returned count is `< B` or at which the cumulative count reaches that
total — whichever comes first (`k` is minimal). -/
theorem collectAllInmates_pagination (page : Nat → ApiBatch) (B fuel k : Nat)
    (hk : stopsAt page B k) (hmin : ∀ i < k, ¬ stopsAt page B i) (hfuel : k < fuel) :
    (collectLoop page B fuel 0 0 none).completed = true ∧
    (collectLoop page B fuel 0 0 none).requests = (List.range (k + 1)).map (fun i => i * B) ∧
    (collectLoop page B fuel 0 0 none).enqueued
        = (List.range (k + 1)).map (fun i => page (i * B)) ∧
    (collectLoop page B fuel 0 0 none).totalProcessed = cumInmates page B (k + 1) := by
  cases fuel with
  | zero => omega
  | succ f =>
      have hbridge : collectLoop page B (f + 1) 0 0 none
          = collectLoop page B (f + 1) 0 0 (some ((page 0).Total)) := by
        simp only [collectLoop, Option.getD_none, Option.getD_some]
      have hrun := collectLoop_run page B k hk hmin (f + 1) 0 (Nat.zero_le k) (by omega)
      rw [Nat.zero_mul] at hrun
      rw [show cumInmates page B 0 = 0 from rfl] at hrun
      rw [hbridge, hrun]
      refine ⟨rfl, ?_, ?_, rfl⟩ <;> simp [List.range_eq_range']

/-- A source reporting `Total: 250` and returning pages of 100, 100, 50
records at offsets 0, 100, 200. -/
def page250 : Nat → ApiBatch := fun skip =>
  if skip = 0 then { Inmates := List.replicate 100 Value.null, Total := 250 }
  else if skip = 100 then { Inmates := List.replicate 100 Value.null, Total := 250 }
  else { Inmates := List.replicate 50 Value.null, Total := 250 }

/-- C3 witness: with page size 100 against `page250`, exactly 3 requests
are issued, at offsets 0, 100, 200, returning 100, 100 and 50 records. -/
theorem collectAllInmates_pagination_witness :
    (collectLoop page250 100 10 0 0 none).completed = true ∧
    (collectLoop page250 100 10 0 0 none).requests = [0, 100, 200] ∧
    (collectLoop page250 100 10 0 0 none).enqueued.map (fun b => b.Inmates.length)
      = [100, 100, 50] := by
  have h := collectAllInmates_pagination page250 100 10 2 (by decide) (by decide) (by omega)
  refine ⟨h.1, h.2.1.trans (by decide), ?_⟩
  rw [h.2.2.1]
  decide

/-! ## Claim C8 -/

/-- C8: if no XSRF token is extractable from the cookies accumulated by the
single initial read request, the run fails with the no-XSRF-token session
error, with no page request issued and no work unit enqueued. -/
theorem collectAllInmates_no_xsrf_token (setCookieHeaders : List String)
    (page : Nat → ApiBatch) (batchSize fuel : Nat)
    (h : getXsrfToken (jarFromHeaders setCookieHeaders) = none) :
    collectAllInmates setCookieHeaders page batchSize fuel =
      { requests := [], enqueued := [],
        errMsg := some "Failed to obtain XSRF token from initial request" } := by
  simp [collectAllInmates, initializeSession, h]

/-- Initial-response cookies that carry no XSRF-TOKEN. -/
def demoHeaders : List String := ["session=abc123; Path=/; HttpOnly", "theme=dark"]

/-- C8 witness: a session whose initial response sets only unrelated
cookies aborts with the session error and an empty trace. -/
theorem collectAllInmates_no_xsrf_token_witness :
    collectAllInmates demoHeaders page250 100 10 =
      { requests := [], enqueued := [],
        errMsg := some "Failed to obtain XSRF token from initial request" } :=
  collectAllInmates_no_xsrf_token demoHeaders page250 100 10 (by decide)

/-! ## Claim C9 -/

/-- C9: `processBatch` isolates failures across the work units of one
invocation: when the first unit fails validation (unparseable JSON, missing
`facilityId`, or invalid batch structure) and the second is well-formed,
the second unit's storage write is still attempted and succeeds, and the
handler completes normally, returning both settled results. -/
theorem processBatch_isolates_failures (parseJson : String → Option Value)
    (store : Value → List Value → Except String Unit) (b1 b2 e : String)
    (fid : Value) (inmates : List Value)
    (h1 : validateBatchMessage parseJson b1 = .error e)
    (h2 : validateBatchMessage parseJson b2 = .ok (fid, inmates))
    (h3 : store fid inmates = .ok ()) :
    processBatch parseJson store [b1, b2] = [.error e, .ok (fid, inmates)] := by
  simp [processBatch, processSingleBatch, h1, h2, h3]

/-- A well-formed batch message for facility `wake` with one inmate. -/
def goodBatchMsg : Value :=
  .objCons "facilityId" (.str "wake")
    (.objCons "batch"
      (.objCons "Inmates" (.arrCons Value.null .arrNil)
        (.objCons "Total" (.num 1) .objNil))
      (.objCons "batchNumber" (.num 1) .objNil))

/-- `JSON.parse` oracle: `"good"` parses to `goodBatchMsg`, anything else
throws. -/
def demoParseJson : String → Option Value :=
  fun s => if s = "good" then some goodBatchMsg else none

/-- A storage backend that accepts every write. -/
def demoStore : Value → List Value → Except String Unit := fun _ _ => .ok ()

/-- C9 witness: `["bad json", "good"]` settles as one failure and one
successful storage write. -/
theorem processBatch_isolates_failures_witness :
    processBatch demoParseJson demoStore ["bad json", "good"]
      = [.error "Unexpected token in JSON", .ok (.str "wake", [Value.null])] :=
  processBatch_isolates_failures demoParseJson demoStore "bad json" "good"
    "Unexpected token in JSON" (.str "wake") [Value.null]
    rfl rfl rfl
